import Mathlib

/-!
Shallow embedding of the sudoku_solver repository (src/sudoku_solver.py and
src/main.py): a 9×9 Sudoku puzzle is reduced to CNF clauses, serialized in
DIMACS wire format for an external SAT solver, and the solver's output is
decoded back into a grid.  Pure fragments of the Python code are translated
into Lean functions; Python exceptions (ValueError on `int`, IndexError on
list subscripts) become an explicit error type, and the file/subprocess I/O
of `solution_from_dimacs_string` is split off so that its pure parsing and
decoding part can be reasoned about.
-/

/-- Python exceptions that the modelled code can raise:
`valueError` for a failing `int(...)` conversion and
`indexError` for an out-of-range list subscript. -/
inductive PyError where
  | valueError
  | indexError
deriving DecidableEq, Repr

/-- A propositional literal over the Sudoku variables.  The Python code
represents the literal as the string `"x_i_j_k"`, prefixed with `'-'` when
negated (built in `constraints_from_grid`, consumed by `to_int`); the
structure holds exactly the data those strings carry: polarity `pos`,
row `i`, column `j` and digit `k`. -/
structure Lit where
  pos : Bool
  i : Nat
  j : Nat
  k : Nat
deriving DecidableEq, Repr

/-- A partially filled grid as read by `constraints_from_grid`, which only
ever subscripts `grid[i][j]` for `i, j` in `0..8`: cell `(i, j)` holds
`some d` when the digit `d` is given and `none` when the cell is blank. -/
def Grid : Type := Nat → Nat → Option Nat

/-- Result of `grid_from_file`: the list of parsed rows. -/
abbrev RawGrid : Type := List (List (Option Nat))

/-- Model of Python `int(c)` on one ASCII character `c` (as used in
`grid_from_file`): a decimal digit `'0'`–`'9'` converts to its value, any
other ASCII character raises `ValueError`.  On non-ASCII input this model
is deliberately not relied upon — Python's `int` also accepts the other
Unicode decimal digits (for example `int('٣') = 3`) — so statements that
quantify over whole texts carry an all-ASCII hypothesis. -/
def pyIntChar (c : Char) : Except PyError Nat :=
  if c.isDigit then .ok (c.toNat - '0'.toNat) else .error .valueError

/-- Effectful map over a list in the `Except` monad, mirroring a Python
list comprehension that can raise: elements are processed left to right and
the first raised exception aborts the whole list. -/
def mapE (f : α → Except PyError β) : List α → Except PyError (List β)
  | [] => .ok []
  | a :: l =>
    match f a with
    | .error e => .error e
    | .ok b => (mapE f l).map (b :: ·)

/-- One character of a puzzle line: `' '` becomes a blank cell, any other
character goes through `int(c)` (ValueError if not a digit). -/
def parseCell (c : Char) : Except PyError (Option Nat) :=
  if c = ' ' then .ok none else (pyIntChar c).map some

/-- Right-padding of a puzzle line to 9 characters with blanks, from
`grid_from_file`: `if len(line) < 9: line += " " * (9 - len(line))`. -/
def padLine (line : List Char) : List Char :=
  if line.length < 9 then line ++ List.replicate (9 - line.length) ' ' else line

/-- Model of `grid_from_file` (src/sudoku_solver.py lines 12–25) applied to
the list of lines of the file: each line is padded to at least 9 characters
and converted cell by cell (`int(c) if c != ' ' else None`); if fewer than
9 rows result, fully blank rows of 9 `None`s are appended. -/
def grid_from_file (lines : List (List Char)) : Except PyError RawGrid :=
  (mapE (fun line => mapE parseCell (padLine line)) lines).map
    (fun g =>
      if g.length < 9 then g ++ List.replicate (9 - g.length) (List.replicate 9 none)
      else g)

/-- Connection between the row-list produced by `grid_from_file` and the
function view of a grid used by `constraints_from_grid`: cell `(i, j)` of
the raw grid, blank when out of range. -/
def gridFn (g : RawGrid) : Grid :=
  fun i j => (g.getD i []).getD j none

/-- The digits `1..9`, Python `range(1, 10)`. -/
def digits : List Nat := List.range' 1 9

/-- Unordered pairs of distinct digits in the order produced by Python
`itertools.combinations(range(1, 10), 2)`: lexicographic, first component
smaller. -/
def digitPairs : List (Nat × Nat) :=
  digits.flatMap (fun k1 => (digits.filter (fun k2 => k1 < k2)).map (fun k2 => (k1, k2)))

/-- Model of `constraints_from_grid` (src/sudoku_solver.py lines 28–76).
The six blocks are appended in the source's order:
givens (loops `for i in range(9): for j in range(9)`), cell occupancy
(comprehension `for j in range(9) for i in range(9)`, so `j` is the outer
loop), per-cell uniqueness (outer loop over digit pairs, then `j`, then
`i`), row coverage, column coverage, and box coverage. -/
def constraints_from_grid (grid : Grid) : List (List Lit) :=
  ((List.range 9).flatMap fun i =>
    (List.range 9).flatMap fun j =>
      match grid i j with
      | some d => [[Lit.mk true i j d]]
      | none => [])
  ++ ((List.range 9).flatMap fun j =>
        (List.range 9).map fun i =>
          digits.map fun k => Lit.mk true i j k)
  ++ (digitPairs.flatMap fun p =>
        (List.range 9).flatMap fun j =>
          (List.range 9).map fun i =>
            [Lit.mk false i j p.1, Lit.mk false i j p.2])
  ++ ((List.range 9).flatMap fun i =>
        digits.map fun k =>
          (List.range 9).map fun j => Lit.mk true i j k)
  ++ ((List.range 9).flatMap fun j =>
        digits.map fun k =>
          (List.range 9).map fun i => Lit.mk true i j k)
  ++ (([0, 3, 6] : List Nat).flatMap fun si =>
        ([0, 3, 6] : List Nat).flatMap fun sj =>
          digits.map fun k =>
            (List.range 3).flatMap fun i =>
              (List.range 3).map fun j => Lit.mk true (si + i) (sj + j) k)

/-- Model of the inner `to_int` of `dimacs_string_from_constraints`
(src/sudoku_solver.py lines 81–83): the literal string `"x_i_j_k"` maps to
`100*i + 10*j + k`, negated when the string starts with `'-'`. -/
def to_int (l : Lit) : Int :=
  (100 * l.i + 10 * l.j + l.k : Nat) * (if l.pos then 1 else -1)

/-- Model of `dimacs_string_from_constraints` (src/sudoku_solver.py lines
79–89): the header `p cnf <num_variables> <num_clauses>` with
`num_variables = 100*8 + 10*8 + 9`, then one line per clause of
space-separated encoded literals terminated by `0`. -/
def dimacs_string_from_constraints (constraints : List (List Lit)) : String :=
  "p cnf " ++ toString (100 * 8 + 10 * 8 + 9 : Nat) ++ " "
    ++ toString constraints.length ++ "\n"
  ++ String.intercalate "\n"
      (constraints.map fun clause =>
        String.intercalate " " (clause.map fun l => toString (to_int l)) ++ " 0")

/-- Digit string to number, most significant first. -/
def natFromDigits (l : List Char) : Nat :=
  l.foldl (fun acc c => 10 * acc + (c.toNat - '0'.toNat)) 0

/-- Model of Python `int(s)` on a `split()` token (given as its character
list): an optional sign followed by at least one decimal digit; anything
else raises `ValueError`. -/
def pyIntStr (s : List Char) : Except PyError Int :=
  match s with
  | '-' :: rest =>
    if rest ≠ [] ∧ rest.all Char.isDigit then .ok (-(natFromDigits rest : Int))
    else .error .valueError
  | '+' :: rest =>
    if rest ≠ [] ∧ rest.all Char.isDigit then .ok (natFromDigits rest : Int)
    else .error .valueError
  | l =>
    if l ≠ [] ∧ l.all Char.isDigit then .ok (natFromDigits l : Int)
    else .error .valueError

/-- Splitting helper for `tokens`: accumulates the current token (in
reverse) and cuts at every blank, dropping empty tokens, as Python
`str.split()` does. -/
def splitAux (cur : List Char) : List Char → List (List Char)
  | [] => if cur = [] then [] else [cur.reverse]
  | c :: rest =>
    if c = ' ' then
      if cur = [] then splitAux [] rest else cur.reverse :: splitAux [] rest
    else splitAux (c :: cur) rest

/-- Python `str.split()` on a line of the solver output:
whitespace-separated tokens, empty tokens dropped. -/
def tokens (s : String) : List (List Char) :=
  splitAux [] s.toList

/-- One cell of the decoded solution grid (src/sudoku_solver.py lines
109–113): the loop `for k in range(1, 10)` overwrites `solution_grid[i][j]`
with every `k` whose id `100*i + 10*j + k` is in the assignment set, so the
cell ends as the last such digit, or `None` when there is none. -/
def decodeCell (s : List Int) (i j : Nat) : Option Nat :=
  digits.foldl (fun acc k => if ((100 * i + 10 * j + k : Nat) : Int) ∈ s then some k else acc)
    none

/-- The decoded solution grid built from an assignment set
(src/sudoku_solver.py lines 108–113): starts as all-`None` and each cell is
filled by `decodeCell`. -/
def solution_from_assignment (s : List Int) : RawGrid :=
  (List.range 9).map fun i => (List.range 9).map fun j => decodeCell s i j

/-- Outcome of `solution_from_dimacs_string`: either the string "UNSAT" or
a decoded grid. -/
inductive SolveResult where
  | unsat
  | grid (g : RawGrid)
deriving DecidableEq, Repr

/-- Model of the pure tail of `solution_from_dimacs_string`
(src/sudoku_solver.py lines 104–114), applied to the lines of the solver's
output file: if the first line is `'UNSAT'` return the sentinel; otherwise
parse the second line as a set of integers (IndexError when the needed line
is absent, ValueError on a bad token) and decode the grid from it.  The
first line is never compared against `'SAT'`. -/
def solution_from_solver_output (out : List String) : Except PyError SolveResult :=
  match out with
  | [] => .error .indexError
  | l0 :: rest =>
    if l0 = "UNSAT" then .ok .unsat
    else
      match rest with
      | [] => .error .indexError
      | l1 :: _ =>
        (mapE pyIntStr (tokens l1)).map fun ids => .grid (solution_from_assignment ids)

/-- What `main` (src/main.py lines 13–33) does, abstracted from I/O:
print the usage message and return, run the solving pipeline on the file
named by `args[1]`, or raise.  With fewer than two arguments the code
prints `f"Usage: {args[0]} path_to_grid\nExiting"`, which subscripts
`args[0]` and hence raises IndexError when `args` is empty. -/
inductive MainResult where
  | usage (msg : String)
  | solve (path : String)
  | err (e : PyError)
deriving DecidableEq, Repr

/-!
Spec-side definitions: these restate, in Lean, the mappings and shapes the
specification describes in words, to be compared with the definitions
translated from the source above.
-/

/-- The decode mapping as the spec states it (§4.3): row = id div 100,
column = (id mod 100) div 10, digit = id mod 10, polarity from the sign. -/
def decodeId (n : Int) : Bool × Nat × Nat × Nat :=
  (decide (0 < n), n.natAbs / 100, n.natAbs % 100 / 10, n.natAbs % 10)

/-- One serialized clause as the spec states it (§4.4): space-separated
signed identifiers terminated by a `0` token. -/
def clauseLine (clause : List Lit) : String :=
  String.intercalate " " (clause.map fun l => toString (to_int l)) ++ " 0"

/-- The wire format as the spec states it (§4.4): header
`p cnf 889 <clauseCount>` with the fixed constant 889, then one line per
clause. -/
def spec_dimacs (cs : List (List Lit)) : String :=
  "p cnf " ++ toString (889 : Nat) ++ " " ++ toString cs.length ++ "\n"
    ++ String.intercalate "\n" (cs.map clauseLine)

/-- The 81 cells in row-major order. -/
def rowMajorCells : List (Nat × Nat) :=
  (List.range 9).flatMap fun i => (List.range 9).map fun j => (i, j)

/-- Number of given digits of a grid: the cells `(i, j)` with
`i, j ∈ 0..8` holding a digit. -/
def numGivens (g : Grid) : Nat :=
  (rowMajorCells.filter fun p => (g p.1 p.2).isSome).length

/-- The unit clauses for the givens, one per given cell, in row-major cell
order. -/
def spec_givens (g : Grid) : List (List Lit) :=
  rowMajorCells.filterMap fun p => (g p.1 p.2).map fun d => [Lit.mk true p.1 p.2 d]

/-- The 81 cell-occupancy clauses (each cell holds at least one digit), in
emission order (column-outer). -/
def spec_occupancy : List (List Lit) :=
  (List.range 9).flatMap fun j =>
    (List.range 9).map fun i => digits.map fun k => Lit.mk true i j k

/-- The 2916 per-cell uniqueness clauses, one per cell and unordered pair
of distinct digits, in emission order (digit-pair-outer). -/
def spec_uniqueness : List (List Lit) :=
  digitPairs.flatMap fun p =>
    (List.range 9).flatMap fun j =>
      (List.range 9).map fun i => [Lit.mk false i j p.1, Lit.mk false i j p.2]

/-- The 81 row-coverage clauses (each digit at least once per row). -/
def spec_rowCoverage : List (List Lit) :=
  (List.range 9).flatMap fun i =>
    digits.map fun k => (List.range 9).map fun j => Lit.mk true i j k

/-- The 81 column-coverage clauses (each digit at least once per column). -/
def spec_colCoverage : List (List Lit) :=
  (List.range 9).flatMap fun j =>
    digits.map fun k => (List.range 9).map fun i => Lit.mk true i j k

/-- The 81 box-coverage clauses (each digit at least once per 3×3 box). -/
def spec_boxCoverage : List (List Lit) :=
  ([0, 3, 6] : List Nat).flatMap fun si =>
    ([0, 3, 6] : List Nat).flatMap fun sj =>
      digits.map fun k =>
        (List.range 3).flatMap fun i =>
          (List.range 3).map fun j => Lit.mk true (si + i) (sj + j) k

/-- One puzzle character as a cell, per the spec's reading rules: a blank
is an unknown cell, any digit character is a given. -/
def charCell (c : Char) : Option Nat :=
  if c = ' ' then none else some (c.toNat - '0'.toNat)

/-- The cell the spec's padding rules assign to position `(i, j)` of a
puzzle text: the character at line `i`, column `j`, with short lines padded
by blanks on the right and missing lines fully blank. -/
def expectedCell (lines : List (List Char)) (i j : Nat) : Option Nat :=
  charCell ((lines.getD i []).getD j ' ')

namespace Cli

/-- Model of `main` (src/main.py lines 13–33) up to the choice of action:
the pipeline itself (file read, solver call, printing) is abstracted as
`MainResult.solve path`. -/
def main (args : List String) : MainResult :=
  if args.length < 2 then
    match args with
    | [] => .err .indexError
    | a0 :: _ => .usage ("Usage: " ++ a0 ++ " path_to_grid\nExiting")
  else .solve (args.getD 1 "")

end Cli

/-- C1: for every literal with row and column in `[0,8]`, digit in `[1,9]`
and either polarity, the encoder `to_int` maps it to
`sign * (100*row + 10*col + digit)`, the spec's decode mapping inverts it,
and the encoding is injective over the 729-point (row, col, digit)
domain. -/
theorem C1_codec_bijection (pos : Bool) (i j k : Nat)
    (hi : i ≤ 8) (hj : j ≤ 8) (hk1 : 1 ≤ k) (hk9 : k ≤ 9) :
    decodeId (to_int (Lit.mk pos i j k)) = (pos, i, j, k) ∧
    ∀ i' j' k', i' ≤ 8 → j' ≤ 8 → 1 ≤ k' → k' ≤ 9 →
      to_int (Lit.mk pos i j k) = to_int (Lit.mk pos i' j' k') →
      i = i' ∧ j = j' ∧ k = k' := by
  constructor
  · cases pos <;>
      simp only [to_int, decodeId, Bool.false_eq_true, if_true, if_false, mul_one,
        mul_neg_one, Prod.mk.injEq, decide_eq_true_eq, decide_eq_false_iff_not, not_lt] <;>
      refine ⟨?_, ?_, ?_, ?_⟩ <;> omega
  · intro i' j' k' hi' hj' hk1' hk9' h
    cases pos <;>
      simp only [to_int, Bool.false_eq_true, if_true, if_false, mul_one, mul_neg_one,
        neg_inj] at h <;> omega

/-- Witness for C1 at the literal `+(0,0,5)`. -/
theorem C1_codec_bijection_witness :
    decodeId (to_int (Lit.mk true 0 0 5)) = (true, 0, 0, 5) :=
  (C1_codec_bijection true 0 0 5 (by decide) (by decide) (by decide) (by decide)).1

/-- C3: the serializer emits the header `p cnf 889 <clauseCount>` — with
the variable-count field the fixed constant 889 — followed by one line per
clause of space-separated signed identifiers terminated by a `0` token, and
the single unit clause `+(0,0,5)` serializes to the line `5 0`. -/
theorem C3_wire_format :
    (∀ cs : List (List Lit), dimacs_string_from_constraints cs = spec_dimacs cs) ∧
    dimacs_string_from_constraints [[Lit.mk true 0 0 5]] = "p cnf 889 1\n5 0" :=
  ⟨fun _ => rfl, rfl⟩

/-- C10 counterexample: invoked with an empty argument vector (fewer than
two entries), `main` does not print a usage message and return normally; it
raises an IndexError while formatting the usage message, because the
message subscripts `args[0]`. -/
theorem C10_cex : Cli.main [] = MainResult.err PyError.indexError := rfl

/-- C10 as amended: invoked with exactly one argument-vector entry, the
entry point returns the usage message without reading a file, generating
constraints, or invoking the solver; with an empty argument vector it
raises an IndexError instead. -/
theorem C10_amended (a0 : String) :
    Cli.main [a0] = MainResult.usage ("Usage: " ++ a0 ++ " path_to_grid\nExiting") ∧
    Cli.main [] = MainResult.err PyError.indexError :=
  ⟨rfl, rfl⟩

/-- Witness for C10 at the one-entry argument vector `["prog"]`. -/
theorem C10_amended_witness :
    Cli.main ["prog"] = MainResult.usage ("Usage: " ++ "prog" ++ " path_to_grid\nExiting") :=
  (C10_amended "prog").1

/-- C5 counterexample: a first line that is neither `SAT` nor `UNSAT` is
not rejected — with a well-formed second line the parser decodes a grid. -/
theorem C5_cex :
    solution_from_solver_output ["SATISFIABLE", "5 0"]
      = Except.ok (SolveResult.grid (solution_from_assignment [5, 0])) := rfl

/-- C5 as amended: the parser only compares the first line against
`UNSAT`; the result is `UNSAT` exactly when the first line is that token,
any other first line is treated as satisfiable, and when it is not `UNSAT`
and no second line is present the parser fails with an IndexError (as it
does on empty output). -/
theorem C5_amended (l0 : String) (rest : List String) :
    (solution_from_solver_output (l0 :: rest) = Except.ok SolveResult.unsat ↔ l0 = "UNSAT") ∧
    (l0 ≠ "UNSAT" → rest = [] →
      solution_from_solver_output (l0 :: rest) = Except.error PyError.indexError) ∧
    solution_from_solver_output [] = Except.error PyError.indexError := by
  refine ⟨?_, ?_, rfl⟩
  · cases rest with
    | nil =>
      constructor
      · intro h
        by_cases hu : l0 = "UNSAT"
        · exact hu
        · exfalso; simp [solution_from_solver_output, hu] at h
      · intro hu; simp [solution_from_solver_output, hu]
    | cons l1 r =>
      constructor
      · intro h
        by_cases hu : l0 = "UNSAT"
        · exact hu
        · exfalso
          cases hm : mapE pyIntStr (tokens l1) with
          | error e => simp [solution_from_solver_output, hu, hm, Except.map] at h
          | ok ids => simp [solution_from_solver_output, hu, hm, Except.map] at h
      · intro hu; simp [solution_from_solver_output, hu]
  · intro hne hrest
    subst hrest
    simp [solution_from_solver_output, hne]

/-- Witness for C5 at the output `["SAT"]`: a satisfiable verdict missing
its second line fails with an IndexError. -/
theorem C5_amended_witness :
    solution_from_solver_output ["SAT"] = Except.error PyError.indexError :=
  (C5_amended "SAT" []).2.1 (by decide) rfl

/-- C6 counterexample: on an assignment set containing no positive cell
identifier, the decoder returns the grid with every cell unset and no
error is surfaced. -/
theorem C6_cex :
    solution_from_solver_output ["SAT", "0"]
      = Except.ok (SolveResult.grid (List.replicate 9 (List.replicate 9 (none : Option Nat)))) := rfl

/-! Helper lemmas about lists and the constraint generator. -/

/-- A filterMap distributes over flatMap. -/
theorem filterMap_flatMap' (l : List α) (f : α → List β) (F : β → Option γ) :
    (l.flatMap f).filterMap F = l.flatMap fun a => (f a).filterMap F := by
  induction l with
  | nil => rfl
  | cons a t ih => simp [List.flatMap_cons, List.filterMap_append, ih]

/-- One row of the givens block, rewritten from the Python `if ... is not
None` accumulation into a filterMap over the column indices. -/
theorem row_filterMap_eq (g : Grid) (i : Nat) :
    ∀ l : List Nat,
      (l.flatMap fun j =>
        match g i j with
        | some d => [[Lit.mk true i j d]]
        | none => [])
      = l.filterMap fun j => (g i j).map fun d => [Lit.mk true i j d] := by
  intro l
  induction l with
  | nil => rfl
  | cons a t ih =>
    cases h : g i a <;> simp [List.flatMap_cons, List.filterMap_cons, h, ih]

/-- The givens block of `constraints_from_grid` is the row-major filterMap
of the grid. -/
theorem givens_eq (g : Grid) :
    ((List.range 9).flatMap fun i =>
      (List.range 9).flatMap fun j =>
        match g i j with
        | some d => [[Lit.mk true i j d]]
        | none => [])
      = spec_givens g := by
  rw [spec_givens, rowMajorCells, filterMap_flatMap']
  refine List.flatMap_congr fun i _ => ?_
  rw [List.filterMap_map, row_filterMap_eq]
  rfl

/-- The constraint generator is exactly the concatenation of the six
blocks, in emission order. -/
theorem constraints_decomp (g : Grid) :
    constraints_from_grid g =
      spec_givens g ++ spec_occupancy ++ spec_uniqueness ++ spec_rowCoverage
        ++ spec_colCoverage ++ spec_boxCoverage := by
  unfold constraints_from_grid
  rw [givens_eq]
  rfl

/-- Counting the givens clauses: one unit clause per cell holding a
digit. -/
theorem length_filterMap_given (g : Grid) :
    ∀ l : List (Nat × Nat),
      (l.filterMap fun p => (g p.1 p.2).map fun d => [Lit.mk true p.1 p.2 d]).length
      = (l.filter fun p => (g p.1 p.2).isSome).length := by
  intro l
  induction l with
  | nil => rfl
  | cons a t ih =>
    cases h : g a.1 a.2 <;>
      simp [List.filterMap_cons, List.filter_cons, h, ih]

/-- Membership in the row-major cell list bounds both coordinates. -/
theorem mem_rowMajorCells {p : Nat × Nat} (hp : p ∈ rowMajorCells) :
    p.1 < 9 ∧ p.2 < 9 := by
  rw [rowMajorCells] at hp
  simp only [List.mem_flatMap, List.mem_map, List.mem_range] at hp
  obtain ⟨i, hi, j, hj, rfl⟩ := hp
  exact ⟨hi, hj⟩

/-- Length of a flatMap as the sum of the lengths of its pieces. -/
theorem length_flatMap' (l : List α) (f : α → List β) :
    (l.flatMap f).length = (l.map fun a => (f a).length).sum := by
  induction l with
  | nil => rfl
  | cons a t ih =>
    simp [List.flatMap_cons, List.length_append, ih, List.map_cons, List.sum_cons]

/-- The uniqueness block has 36 × 81 = 2916 clauses. -/
theorem length_spec_uniqueness : spec_uniqueness.length = 2916 := by
  rw [spec_uniqueness, length_flatMap']
  have h : ∀ p : Nat × Nat,
      (((List.range 9).flatMap fun j =>
        (List.range 9).map fun i =>
          [Lit.mk false i j p.1, Lit.mk false i j p.2])).length = 81 :=
    fun _ => rfl
  simp only [h]
  rfl

/-- Every occupancy clause lists the 9 digits of one cell. -/
theorem width_spec_occupancy : ∀ c ∈ spec_occupancy, c.length = 9 := by
  intro c hc
  rw [spec_occupancy] at hc
  simp only [List.mem_flatMap, List.mem_map] at hc
  obtain ⟨j, _, i, _, rfl⟩ := hc
  rfl

/-- Every uniqueness clause has exactly two (negative) literals. -/
theorem width_spec_uniqueness : ∀ c ∈ spec_uniqueness, c.length = 2 := by
  intro c hc
  rw [spec_uniqueness] at hc
  simp only [List.mem_flatMap, List.mem_map] at hc
  obtain ⟨p, _, j, _, i, _, rfl⟩ := hc
  rfl

/-- Every row-coverage clause lists the 9 columns of one row. -/
theorem width_spec_rowCoverage : ∀ c ∈ spec_rowCoverage, c.length = 9 := by
  intro c hc
  rw [spec_rowCoverage] at hc
  simp only [List.mem_flatMap, List.mem_map] at hc
  obtain ⟨i, _, k, _, rfl⟩ := hc
  rfl

/-- Every column-coverage clause lists the 9 rows of one column. -/
theorem width_spec_colCoverage : ∀ c ∈ spec_colCoverage, c.length = 9 := by
  intro c hc
  rw [spec_colCoverage] at hc
  simp only [List.mem_flatMap, List.mem_map] at hc
  obtain ⟨j, _, k, _, rfl⟩ := hc
  rfl

/-- Every box-coverage clause lists the 9 cells of one box. -/
theorem width_spec_boxCoverage : ∀ c ∈ spec_boxCoverage, c.length = 9 := by
  intro c hc
  rw [spec_boxCoverage] at hc
  simp only [List.mem_flatMap, List.mem_map] at hc
  obtain ⟨si, _, sj, _, k, _, rfl⟩ := hc
  rfl

/-- C2: for every grid with `numGivens g` given digits the generated
clause list has exactly `numGivens g + 3240` clauses: one unit clause per
given, 81 width-9 cell-occupancy clauses, 2916 width-2 per-cell uniqueness
clauses, and 81 row-coverage, 81 column-coverage and 81 box-coverage
clauses of width 9. -/
theorem C2_clause_count (g : Grid) :
    (constraints_from_grid g).length = numGivens g + 3240 ∧
    (spec_givens g).length = numGivens g ∧
    (∀ c ∈ spec_givens g, c.length = 1) ∧
    spec_occupancy.length = 81 ∧ (∀ c ∈ spec_occupancy, c.length = 9) ∧
    spec_uniqueness.length = 2916 ∧ (∀ c ∈ spec_uniqueness, c.length = 2) ∧
    spec_rowCoverage.length = 81 ∧ (∀ c ∈ spec_rowCoverage, c.length = 9) ∧
    spec_colCoverage.length = 81 ∧ (∀ c ∈ spec_colCoverage, c.length = 9) ∧
    spec_boxCoverage.length = 81 ∧ (∀ c ∈ spec_boxCoverage, c.length = 9) := by
  have hg : (spec_givens g).length = numGivens g := by
    rw [spec_givens, length_filterMap_given, numGivens]
  have hunit : ∀ c ∈ spec_givens g, c.length = 1 := by
    intro c hc
    rw [spec_givens] at hc
    obtain ⟨p, _, hp⟩ := List.mem_filterMap.mp hc
    cases hgp : g p.1 p.2 <;> rw [hgp] at hp
    · exact absurd hp (by simp)
    · obtain rfl := Option.some.inj hp
      rfl
  refine ⟨?_, hg, hunit, rfl, width_spec_occupancy, length_spec_uniqueness,
    width_spec_uniqueness, rfl, width_spec_rowCoverage, rfl, width_spec_colCoverage,
    rfl, width_spec_boxCoverage⟩
  rw [constraints_decomp]
  simp only [List.length_append]
  rw [hg, length_spec_uniqueness]
  have h2 : spec_occupancy.length = 81 := rfl
  have h4 : spec_rowCoverage.length = 81 := rfl
  have h5 : spec_colCoverage.length = 81 := rfl
  have h6 : spec_boxCoverage.length = 81 := rfl
  rw [h2, h4, h5, h6]

/-- C8: two grids that agree on every cell of the 9×9 region generate
identical clause lists; cells outside the region never influence the
constraints. -/
theorem C8_region_agreement (g1 g2 : Grid)
    (h : ∀ i j, i < 9 → j < 9 → g1 i j = g2 i j) :
    constraints_from_grid g1 = constraints_from_grid g2 := by
  rw [constraints_decomp, constraints_decomp]
  have hgv : spec_givens g1 = spec_givens g2 := by
    rw [spec_givens, spec_givens]
    refine List.filterMap_congr fun p hp => ?_
    obtain ⟨h1, h2⟩ := mem_rowMajorCells hp
    rw [h p.1 p.2 h1 h2]
  rw [hgv]

/-- Witness for C8: a grid extended with junk at row 9 (outside the 9×9
region) generates the same clause list. -/
theorem C8_region_agreement_witness :
    constraints_from_grid (fun i j => if i = 0 ∧ j = 0 then some 5 else none)
      = constraints_from_grid (fun i j =>
          if i = 9 then some 1 else if i = 0 ∧ j = 0 then some 5 else none) :=
  C8_region_agreement _ _ (by
    intro i j hi _
    have h9 : ¬ i = 9 := by omega
    simp only [h9, if_false])

/-- C9: the clause list is emitted in one fixed order — givens (row-major)
first, then cell occupancy, per-cell uniqueness, row coverage, column
coverage and box coverage — and serializing the same grid twice yields the
identical wire string (immediate, the embedded serializer being a pure
function of the clause list). -/
theorem C9_emission_order (g : Grid) :
    constraints_from_grid g =
      spec_givens g ++ spec_occupancy ++ spec_uniqueness ++ spec_rowCoverage
        ++ spec_colCoverage ++ spec_boxCoverage ∧
    dimacs_string_from_constraints (constraints_from_grid g)
      = dimacs_string_from_constraints (constraints_from_grid g) :=
  ⟨constraints_decomp g, rfl⟩

/-- A digit is in `digits` exactly when it lies in `[1, 9]`. -/
theorem mem_digits (k : Nat) : k ∈ digits ↔ 1 ≤ k ∧ k ≤ 9 := by
  rw [digits, List.mem_range']
  constructor
  · rintro ⟨i, hi, rfl⟩
    omega
  · intro h
    exact ⟨k - 1, by omega, by omega⟩

/-- The overwrite fold of `decodeCell` yields `none` exactly when it
started from `none` and no listed digit satisfies the predicate. -/
theorem foldl_pick_none_iff (p : Nat → Prop) [DecidablePred p] :
    ∀ (l : List Nat) (acc : Option Nat),
      (l.foldl (fun a k => if p k then some k else a) acc = none ↔
        acc = none ∧ ∀ k ∈ l, ¬ p k) := by
  intro l
  induction l with
  | nil => intro acc; simp
  | cons a t ih =>
    intro acc
    rw [List.foldl_cons]
    by_cases h : p a
    · rw [if_pos h, ih]
      simp [List.forall_mem_cons, h]
    · rw [if_neg h, ih]
      simp [List.forall_mem_cons, h]

/-- The overwrite fold over an ascending range yields `some d` exactly
when `d` is the greatest in-range value satisfying the predicate, or when
it was the start value and nothing in range satisfies it.  This captures
the Python loop `for k in range(1, 10): if ...: grid[i][j] = k`, whose
last matching `k` wins. -/
theorem foldl_pick_sorted (p : Nat → Prop) [DecidablePred p] :
    ∀ (n lo : Nat) (acc : Option Nat) (d : Nat),
      ((List.range' lo n).foldl (fun a k => if p k then some k else a) acc = some d ↔
        ((lo ≤ d ∧ d < lo + n ∧ p d ∧ ∀ k, d < k → k < lo + n → ¬ p k) ∨
         (acc = some d ∧ ∀ k, lo ≤ k → k < lo + n → ¬ p k))) := by
  intro n
  induction n with
  | zero =>
    intro lo acc d
    rw [List.range'_zero, List.foldl_nil]
    constructor
    · intro h
      exact Or.inr ⟨h, fun k hk1 hk2 => absurd hk2 (by omega)⟩
    · rintro (⟨h1, h2, _, _⟩ | ⟨h, _⟩)
      · exact absurd h2 (by omega)
      · exact h
  | succ n ih =>
    intro lo acc d
    rw [List.range'_succ, List.foldl_cons, ih (lo + 1)]
    by_cases hp : p lo
    · rw [if_pos hp]
      constructor
      · rintro (⟨h1, h2, h3, h4⟩ | ⟨heq, hnone⟩)
        · exact Or.inl ⟨by omega, by omega, h3, fun k hk1 hk2 => h4 k hk1 (by omega)⟩
        · obtain rfl := Option.some.inj heq
          exact Or.inl ⟨Nat.le_refl lo, by omega, hp,
            fun k hk1 hk2 => hnone k (by omega) (by omega)⟩
      · rintro (⟨h1, h2, h3, h4⟩ | ⟨heq, hall⟩)
        · by_cases hd : lo = d
          · subst hd
            exact Or.inr ⟨rfl, fun k hk1 hk2 => h4 k (by omega) (by omega)⟩
          · exact Or.inl ⟨by omega, by omega, h3, fun k hk1 hk2 => h4 k hk1 (by omega)⟩
        · exact absurd hp (hall lo (Nat.le_refl lo) (by omega))
    · rw [if_neg hp]
      constructor
      · rintro (⟨h1, h2, h3, h4⟩ | ⟨heq, hnone⟩)
        · exact Or.inl ⟨by omega, by omega, h3, fun k hk1 hk2 => h4 k hk1 (by omega)⟩
        · refine Or.inr ⟨heq, fun k hk1 hk2 => ?_⟩
          by_cases hkl : k = lo
          · subst hkl
            exact hp
          · exact hnone k (by omega) (by omega)
      · rintro (⟨h1, h2, h3, h4⟩ | ⟨heq, hall⟩)
        · have hdlo : lo ≠ d := fun he => hp (he ▸ h3)
          exact Or.inl ⟨by omega, by omega, h3, fun k hk1 hk2 => h4 k hk1 (by omega)⟩
        · exact Or.inr ⟨heq, fun k hk1 hk2 => hall k (by omega) (by omega)⟩

/-- A decoded cell is unset exactly when no digit's positive identifier is
in the assignment set. -/
theorem decodeCell_none_iff (s : List Int) (i j : Nat) :
    decodeCell s i j = none ↔
      ∀ k, 1 ≤ k → k ≤ 9 → ¬ (((100 * i + 10 * j + k : Nat) : Int) ∈ s) := by
  rw [decodeCell]
  refine (foldl_pick_none_iff
    (fun k => ((100 * i + 10 * j + k : Nat) : Int) ∈ s) digits none).trans ?_
  simp only [true_and, mem_digits, and_imp]

/-- A cell decodes to `some d` exactly when `d` is the largest digit in
`[1, 9]` whose positive identifier is in the assignment set — the Python
loop overwrites the cell with every matching digit, so the last one
wins. -/
theorem decodeCell_eq_some_iff (s : List Int) (i j d : Nat) :
    decodeCell s i j = some d ↔
      (1 ≤ d ∧ d ≤ 9 ∧ ((100 * i + 10 * j + d : Nat) : Int) ∈ s ∧
        ∀ k, d < k → k ≤ 9 → ¬ (((100 * i + 10 * j + k : Nat) : Int) ∈ s)) := by
  rw [decodeCell, digits]
  refine Iff.trans (foldl_pick_sorted
    (fun k => ((100 * i + 10 * j + k : Nat) : Int) ∈ s) 9 1 none d) ?_
  constructor
  · rintro (⟨h1, h2, h3, h4⟩ | ⟨heq, _⟩)
    · exact ⟨h1, by omega, h3, fun k hk1 hk2 => h4 k hk1 (by omega)⟩
    · exact absurd heq (by simp)
  · rintro ⟨h1, h2, h3, h4⟩
    exact Or.inl ⟨h1, by omega, h3, fun k hk1 hk2 => h4 k hk1 (by omega)⟩

/-- Cell `(i, j)` of the decoded grid is exactly `decodeCell`. -/
theorem solution_cell (s : List Int) (i j : Nat) (hi : i < 9) (hj : j < 9) :
    gridFn (solution_from_assignment s) i j = decodeCell s i j := by
  show (((solution_from_assignment s).getD i []).getD j none) = decodeCell s i j
  rw [solution_from_assignment]
  simp [List.getD_eq_getElem?_getD, List.getElem?_map, List.getElem?_range, hi, hj]

/-- C6 as amended: each cell of the returned grid carries `some d`
exactly when `d` is the last (largest) digit of 1..9 whose positive
identifier is in the assignment set, and is left unset (`none`) exactly
when no digit's identifier is present — no error is surfaced in that
case. -/
theorem C6_amended (s : List Int) (i j : Nat) (hi : i < 9) (hj : j < 9) :
    gridFn (solution_from_assignment s) i j = decodeCell s i j ∧
    (∀ d, decodeCell s i j = some d ↔
      (1 ≤ d ∧ d ≤ 9 ∧ ((100 * i + 10 * j + d : Nat) : Int) ∈ s ∧
        ∀ k, d < k → k ≤ 9 → ¬ (((100 * i + 10 * j + k : Nat) : Int) ∈ s))) ∧
    (decodeCell s i j = none ↔
      ∀ k, 1 ≤ k → k ≤ 9 → ¬ (((100 * i + 10 * j + k : Nat) : Int) ∈ s)) :=
  ⟨solution_cell s i j hi hj, fun d => decodeCell_eq_some_iff s i j d,
    decodeCell_none_iff s i j⟩

/-- Witness for C6 at the assignment set `{5}` and cell `(0, 0)`. -/
theorem C6_amended_witness :
    gridFn (solution_from_assignment [(5 : Int)]) 0 0 = decodeCell [(5 : Int)] 0 0 :=
  (C6_amended [(5 : Int)] 0 0 (by decide) (by decide)).1

/-- A cell parse fails exactly on a character that is neither a decimal
digit nor a blank, and the failure is the ValueError of `int(c)`. -/
theorem parseCell_error_iff (c : Char) :
    parseCell c = .error PyError.valueError ↔ ¬ c.isDigit ∧ c ≠ ' ' := by
  rw [parseCell]
  by_cases hs : c = ' '
  · simp [hs]
  · rw [if_neg hs, pyIntChar]
    by_cases hd : c.isDigit
    · simp [hd, Except.map, hs]
    · simp [hd, Except.map, hs]

/-- On a digit or blank character the cell parse succeeds with the value
the spec assigns to the character. -/
theorem parseCell_ok_charCell (c : Char) (h : c.isDigit ∨ c = ' ') :
    parseCell c = .ok (charCell c) := by
  rw [parseCell, charCell]
  by_cases hs : c = ' '
  · simp [hs]
  · rcases h with hd | hs'
    · simp [hs, pyIntChar, hd, Except.map]
    · exact absurd hs' hs

/-- A cell parse either succeeds or fails with a ValueError. -/
theorem parseCell_ok_or (c : Char) :
    (∃ b, parseCell c = .ok b) ∨ parseCell c = .error PyError.valueError := by
  by_cases hgood : c.isDigit ∨ c = ' '
  · exact Or.inl ⟨charCell c, parseCell_ok_charCell c hgood⟩
  · push_neg at hgood
    exact Or.inr ((parseCell_error_iff c).mpr hgood)

/-- When every element maps successfully, `mapE` returns the mapped
list. -/
theorem mapE_eq_ok_map (f : α → Except PyError β) (F : α → β) :
    ∀ l : List α, (∀ a ∈ l, f a = .ok (F a)) → mapE f l = .ok (l.map F) := by
  intro l
  induction l with
  | nil => intro _; rfl
  | cons a t ih =>
    intro h
    simp [mapE, h a (List.mem_cons_self a t),
      ih fun x hx => h x (List.mem_cons_of_mem a hx), Except.map]

/-- When each element either succeeds or fails with a ValueError, `mapE`
fails with a ValueError exactly when some element does, and otherwise
succeeds with every element succeeding. -/
theorem mapE_classify (f : α → Except PyError β)
    (hf : ∀ a, (∃ b, f a = .ok b) ∨ f a = .error PyError.valueError) :
    ∀ l : List α,
      (mapE f l = .error PyError.valueError ∧ ∃ a ∈ l, f a = .error PyError.valueError)
      ∨ (∃ bs, mapE f l = .ok bs ∧ ∀ a ∈ l, ∃ b, f a = .ok b) := by
  intro l
  induction l with
  | nil => exact Or.inr ⟨[], rfl, by simp⟩
  | cons a t ih =>
    rcases hf a with ⟨b, hb⟩ | hb
    · rcases ih with ⟨he, x, hx, hfx⟩ | ⟨bs, hbs, hok⟩
      · refine Or.inl ⟨?_, x, List.mem_cons_of_mem a hx, hfx⟩
        simp [mapE, hb, he, Except.map]
      · refine Or.inr ⟨b :: bs, ?_, ?_⟩
        · simp [mapE, hb, hbs, Except.map]
        · intro x hx
          rcases List.mem_cons.mp hx with rfl | hx
          · exact ⟨b, hb⟩
          · exact hok x hx
    · refine Or.inl ⟨?_, a, List.mem_cons_self a t, hb⟩
      simp [mapE, hb]

/-- Padding never shortens a line below 9 characters. -/
theorem padLine_length (line : List Char) : 9 ≤ (padLine line).length := by
  rw [padLine]
  split
  · rename_i h
    rw [List.length_append, List.length_replicate]
    omega
  · rename_i h
    omega

/-- Characters of a padded line come from the line or are blanks. -/
theorem mem_padLine {c : Char} {line : List Char} (h : c ∈ padLine line) :
    c ∈ line ∨ c = ' ' := by
  rw [padLine] at h
  split at h
  · rcases List.mem_append.mp h with h' | h'
    · exact Or.inl h'
    · exact Or.inr (List.eq_of_mem_replicate h')
  · exact Or.inl h

/-- A line is contained in its padding. -/
theorem subset_padLine {c : Char} {line : List Char} (h : c ∈ line) :
    c ∈ padLine line := by
  rw [padLine]
  split
  · exact List.mem_append_left _ h
  · exact h

/-- Reading a replicated list with its own element as default always
yields that element. -/
theorem getD_replicate_self (c : α) (n m : Nat) :
    (List.replicate n c).getD m c = c := by
  rw [List.getD_eq_getElem?_getD, List.getElem?_replicate]
  split <;> rfl

/-- With blank as default, a padded line reads as the original line. -/
theorem padLine_getD (line : List Char) (j : Nat) :
    (padLine line).getD j ' ' = line.getD j ' ' := by
  rw [padLine]
  split
  · rename_i h
    by_cases hjl : j < line.length
    · exact List.getD_append _ _ _ _ hjl
    · rw [List.getD_append_right _ _ _ _ (by omega), getD_replicate_self,
        List.getD_eq_default _ _ (by omega)]
  · rfl

/-- A padded line of digits and blanks parses to its character cells. -/
theorem lineParse_ok (line : List Char) (h : ∀ c ∈ line, c.isDigit ∨ c = ' ') :
    mapE parseCell (padLine line) = .ok ((padLine line).map charCell) := by
  refine mapE_eq_ok_map parseCell charCell (padLine line) fun c hc => ?_
  refine parseCell_ok_charCell c ?_
  rcases mem_padLine hc with hcl | rfl
  · exact h c hcl
  · exact Or.inr rfl

/-- A line parse either succeeds or fails with a ValueError. -/
theorem lineParse_ok_or (line : List Char) :
    (∃ row, mapE parseCell (padLine line) = .ok row) ∨
      mapE parseCell (padLine line) = .error PyError.valueError := by
  rcases mapE_classify parseCell parseCell_ok_or (padLine line) with ⟨he, _⟩ | ⟨bs, hbs, _⟩
  · exact Or.inr he
  · exact Or.inl ⟨bs, hbs⟩

/-- A line parse fails (with a ValueError) exactly when the line holds a
character that is neither a digit nor a blank. -/
theorem lineParse_error_iff (line : List Char) :
    mapE parseCell (padLine line) = .error PyError.valueError ↔
      ∃ c ∈ line, ¬ c.isDigit ∧ c ≠ ' ' := by
  constructor
  · intro h
    rcases mapE_classify parseCell parseCell_ok_or (padLine line) with
      ⟨_, c, hc, hcerr⟩ | ⟨bs, hbs, _⟩
    · have hbad := (parseCell_error_iff c).mp hcerr
      rcases mem_padLine hc with hcl | rfl
      · exact ⟨c, hcl, hbad⟩
      · exact absurd rfl hbad.2
    · rw [hbs] at h
      exact absurd h (by simp)
  · rintro ⟨c, hc, hbad⟩
    rcases mapE_classify parseCell parseCell_ok_or (padLine line) with
      ⟨he, _⟩ | ⟨bs, hbs, hok⟩
    · exact he
    · obtain ⟨b, hb⟩ := hok c (subset_padLine hc)
      rw [(parseCell_error_iff c).mpr hbad] at hb
      exact absurd hb (by simp)

/-- C4 counterexample: a line containing the character `'0'` is not
rejected — `int('0')` succeeds, so the reader accepts it as the (invalid)
given digit 0. -/
theorem C4_cex :
    grid_from_file [['0']]
      = Except.ok ((some 0 :: List.replicate 8 none)
          :: List.replicate 8 (List.replicate 9 none)) := rfl

/-- C4 as amended: for puzzle texts made of ASCII characters the reader
fails — with the ValueError of `int(c)`, the FormatError analogue —
exactly when some character of some line is neither a decimal digit
`'0'`–`'9'` nor a blank; in particular `'0'` is accepted (as the invalid
given digit 0) while letters and punctuation are rejected, and no other
validation is performed.  Python's `int` additionally accepts non-ASCII
Unicode decimal digits (for example `int('٣') = 3`), which the ASCII
hypothesis excludes from this statement's scope. -/
theorem C4_amended (lines : List (List Char))
    (_ascii : ∀ line ∈ lines, ∀ c ∈ line, c.toNat < 128) :
    grid_from_file lines = .error PyError.valueError ↔
      ∃ line ∈ lines, ∃ c ∈ line, ¬ c.isDigit ∧ c ≠ ' ' := by
  rw [grid_from_file]
  rcases mapE_classify (fun line => mapE parseCell (padLine line)) lineParse_ok_or lines with
    ⟨he, line, hl, herr⟩ | ⟨bs, hbs, hok⟩
  · rw [he]
    exact iff_of_true rfl ⟨line, hl, (lineParse_error_iff line).mp herr⟩
  · rw [hbs]
    refine iff_of_false (by simp [Except.map]) ?_
    rintro ⟨line, hl, c, hc, hbad⟩
    obtain ⟨row, hrow⟩ := hok line hl
    rw [(lineParse_error_iff line).mpr ⟨c, hc, hbad⟩] at hrow
    exact absurd hrow (by simp)

/-- A parse of a good file succeeds with the padded rows, completed to at
least nine rows with blank rows. -/
theorem grid_from_file_ok (lines : List (List Char))
    (h : ∀ line ∈ lines, ∀ c ∈ line, c.isDigit ∨ c = ' ') :
    grid_from_file lines = .ok (
      if (lines.map fun line => (padLine line).map charCell).length < 9 then
        (lines.map fun line => (padLine line).map charCell)
          ++ List.replicate
              (9 - (lines.map fun line => (padLine line).map charCell).length)
              (List.replicate 9 none)
      else lines.map fun line => (padLine line).map charCell) := by
  rw [grid_from_file,
    mapE_eq_ok_map _ (fun line => (padLine line).map charCell) lines
      (fun line hl => lineParse_ok line (h line hl))]
  rfl

/-- C7: on a text whose lines hold only digit and blank characters the
reader succeeds and covers the whole 9×9 region: short lines are padded on
the right with blanks, missing lines are synthesized as fully blank, and
every cell `(i, j)` with `i, j < 9` is mapped to a digit or to absent,
exactly as the spec's padding rules prescribe. -/
theorem C7_padding (lines : List (List Char))
    (h : ∀ line ∈ lines, ∀ c ∈ line, c.isDigit ∨ c = ' ') :
    ∃ g, grid_from_file lines = Except.ok g ∧ 9 ≤ g.length ∧
      (∀ row ∈ g, 9 ≤ row.length) ∧
      ∀ i, i < 9 → ∀ j, j < 9 → gridFn g i j = expectedCell lines i j := by
  refine ⟨_, grid_from_file_ok lines h, ?_, ?_, ?_⟩
  · by_cases hlen : (lines.map fun line => (padLine line).map charCell).length < 9
    · rw [if_pos hlen, List.length_append, List.length_replicate]
      omega
    · rw [if_neg hlen]
      omega
  · intro row hrow
    by_cases hlen : (lines.map fun line => (padLine line).map charCell).length < 9
    · rw [if_pos hlen] at hrow
      rcases List.mem_append.mp hrow with hr | hr
      · obtain ⟨line, _, rfl⟩ := List.mem_map.mp hr
        rw [List.length_map]
        exact padLine_length line
      · rw [List.eq_of_mem_replicate hr, List.length_replicate]
    · rw [if_neg hlen] at hrow
      obtain ⟨line, _, rfl⟩ := List.mem_map.mp hrow
      rw [List.length_map]
      exact padLine_length line
  · intro i hi j hj
    have hg0len : (lines.map fun line => (padLine line).map charCell).length
        = lines.length := List.length_map _ _
    simp only [gridFn]
    by_cases hil : i < lines.length
    · have hig0 : i < (lines.map fun line => (padLine line).map charCell).length := by
        omega
      have hstep1 : (if (lines.map fun line => (padLine line).map charCell).length < 9 then
            (lines.map fun line => (padLine line).map charCell)
              ++ List.replicate
                  (9 - (lines.map fun line => (padLine line).map charCell).length)
                  (List.replicate 9 none)
          else lines.map fun line => (padLine line).map charCell).getD i []
          = (lines.map fun line => (padLine line).map charCell).getD i [] := by
        by_cases hlen : (lines.map fun line => (padLine line).map charCell).length < 9
        · rw [if_pos hlen]
          exact List.getD_append _ _ _ _ hig0
        · rw [if_neg hlen]
      rw [hstep1, List.getD_eq_getElem _ _ hig0, List.getElem_map]
      have hjlen : j < ((padLine lines[i]).map charCell).length := by
        rw [List.length_map]
        have := padLine_length lines[i]
        omega
      have hjp : j < (padLine lines[i]).length := by
        have := padLine_length lines[i]
        omega
      rw [List.getD_eq_getElem _ _ hjlen, List.getElem_map, expectedCell,
        ← List.getD_eq_getElem _ _ hjp, padLine_getD, List.getD_eq_getElem _ _ hil]
    · have hlen : (lines.map fun line => (padLine line).map charCell).length < 9 := by
        omega
      rw [if_pos hlen, List.getD_append_right _ _ _ _ (by omega)]
      have hrep : (List.replicate
            (9 - (lines.map fun line => (padLine line).map charCell).length)
            (List.replicate 9 (none : Option Nat))).getD
            (i - (lines.map fun line => (padLine line).map charCell).length) []
          = List.replicate 9 none := by
        rw [List.getD_eq_getElem _ _ (by rw [List.length_replicate]; omega)]
        simp
      rw [hrep, getD_replicate_self, expectedCell,
        List.getD_eq_default lines [] (show lines.length ≤ i by omega)]
      rfl

/-- Witness for C7 at a one-line puzzle with a short line. -/
theorem C7_padding_witness :
    ∃ g, grid_from_file [['5', '3', ' ', ' ', '7']] = Except.ok g ∧ 9 ≤ g.length ∧
      (∀ row ∈ g, 9 ≤ row.length) ∧
      ∀ i, i < 9 → ∀ j, j < 9 →
        gridFn g i j = expectedCell [['5', '3', ' ', ' ', '7']] i j :=
  C7_padding [['5', '3', ' ', ' ', '7']] (by decide)

/-- Witness for C4 at the ASCII puzzle line `53x`: the letter makes the
reader fail with a ValueError. -/
theorem C4_amended_witness :
    grid_from_file [['5', '3', 'x']] = Except.error PyError.valueError :=
  (C4_amended [['5', '3', 'x']] (by decide)).mpr (by decide)
